import Mathlib

/-!
Verification of the MAL-completionist repository against its specification.

The repository has three Python entry points sharing one SQLite table:
`completionist-cli.py` (interactive CLI), `progression.py` (comparison
script) and `fetch_anilist.py` (catalog ingestion).  This file gives a
shallow embedding of the data model and the operations the claims are
about, translated from the source, and proves or refutes each claim.
-/

namespace MalCompletionist

/-! ## Watch-history loader

`load_mal_watched` appears twice in the repository:
  * `completionist-cli.py` lines 16-41, wrapped in try/except that catches
    any exception and returns the empty set;
  * `progression.py` lines 6-27, identical body but with no try/except.

An XML `<anime>` element may lack the `series_animedb_id` / `my_status`
child (modelled as `none`), or have the child with no text (modelled as
`some none`), or have text (`some (some s)`).
-/

/-- Python `str.strip()` on a character list: drop whitespace from both
ends. -/
def stripList (cs : List Char) : List Char :=
  ((cs.dropWhile Char.isWhitespace).reverse.dropWhile Char.isWhitespace).reverse

/-- Python `str.strip()`. -/
def pyStrip (s : String) : String := String.mk (stripList s.toList)

/-- Python `str.lower()` (ASCII letters, which is all the loader compares). -/
def pyLower (s : String) : String := String.mk (s.toList.map Char.toLower)

/-- Value of a nonempty all-digit character list, `none` otherwise.
Helper for the model of Python `int(...)`. -/
def digitsVal (cs : List Char) : Option Nat :=
  if cs.isEmpty then none
  else if cs.all Char.isDigit then
    some (cs.foldl (fun a c => a * 10 + (c.toNat - 48)) 0)
  else none

/-- Model of Python `int(str)`: strip surrounding whitespace, optional
sign, then a nonempty run of decimal digits; anything else raises
`ValueError`, modelled as `none`. -/
def pyInt (s : String) : Option Int :=
  match stripList s.toList with
  | '+' :: ds => (digitsVal ds).map Int.ofNat
  | '-' :: ds => (digitsVal ds).map (fun n => -(n : Int))
  | ds => (digitsVal ds).map Int.ofNat

/-- One `<anime>` element of the MAL export: the `series_animedb_id` and
`my_status` children, each possibly missing (`none`) or present without
text (`some none`). -/
structure MalRecord where
  series_animedb_id : Option (Option String)
  my_status : Option (Option String)
deriving DecidableEq, Repr

/-- The status string the loader computes for a record: `""` when the
`my_status` element is missing or has no text, otherwise the stripped
text (cli lines 29-33). -/
def statusText (r : MalRecord) : String :=
  match r.my_status with
  | none => ""
  | some none => ""
  | some (some t) => pyStrip t

/-- Line 35 of the CLI: `status.lower() == "completed" or status == "2"`. -/
def recordWatched (r : MalRecord) : Bool :=
  pyLower (statusText r) == "completed" || statusText r == "2"

/-- The record loop shared by both loaders (cli lines 23-36,
progression lines 12-25).  Records whose `series_animedb_id` element is
missing or has no text are skipped (`continue`); a present id text that
`int(...)` cannot parse raises, modelled by returning `none` for the
whole run; otherwise the id is added when the status test passes. -/
def loadAux : List MalRecord → Option (List Int)
  | [] => some []
  | r :: rs =>
    match r.series_animedb_id with
    | none => loadAux rs
    | some none => loadAux rs
    | some (some s) =>
      match pyInt s with
      | none => none
      | some i =>
        if recordWatched r then (loadAux rs).map (fun l => i :: l)
        else loadAux rs

/-- Errors a loader run can hit: a file-level parse error from
`ET.parse`, or a `ValueError` from `int(...)`. -/
inductive PErr
  | parseError
  | valueError
deriving DecidableEq, Repr

/-- `progression.py` lines 6-27: no try/except, so both a file-level
parse error and an `int(...)` failure propagate to the caller. -/
def progressionLoad (input : Except PErr (List MalRecord)) : Except PErr (List Int) :=
  match input with
  | .error e => .error e
  | .ok doc =>
    match loadAux doc with
    | none => .error .valueError
    | some l => .ok l

/-- `completionist-cli.py` lines 16-41: the same body wrapped in
try/except; any exception yields the empty set (line 41). -/
def load_mal_watched (input : Except PErr (List MalRecord)) : List Int :=
  match input with
  | .error _ => []
  | .ok doc => (loadAux doc).getD []

/-- A concrete export: one completed record with id 10, one record with
no id element, one unwatched record with id 7. -/
def wdocGood : List MalRecord :=
  [⟨some (some "10"), some (some " Completed ")⟩,
   ⟨none, some (some "2")⟩,
   ⟨some (some "7"), some (some "4")⟩]

/-- A concrete export holding a valid completed record (id 5) and a
record whose id text "x" is not an integer. -/
def wdocBad : List MalRecord :=
  [⟨some (some "5"), some (some "Completed")⟩,
   ⟨some (some "x"), some (some "2")⟩]

/-! ## Catalog table

Schema from `fetch_anilist.py` lines 34-52 (`mal_id INTEGER PRIMARY KEY`
plus denormalized attributes).  A table is its list of rows in insertion
(rowid) order, which is the order SQLite yields for an unordered scan. -/

/-- One row of the `anime` table. -/
structure Row where
  mal_id : Int
  title : String
  year : Int
  rating : Rat
  cant_episodes : Int
  duration_per_episode : Int
  type : String
  genre : String
  demographic : String
  season : String
  source : String
  studio : String
  favourites : Int
  description : String
  cover_url : String
deriving DecidableEq, Repr

/-- Row builder for concrete examples: id, year, rating, favourites,
episode count, duration. -/
def mkRow (id : Int) (y : Int) (ra : Rat) (fa ep du : Int) : Row :=
  { mal_id := id, title := "t", year := y, rating := ra, cant_episodes := ep,
    duration_per_episode := du, type := "TV", genre := "Action",
    demographic := "", season := "", source := "", studio := "",
    favourites := fa, description := "", cover_url := "" }

/-! ## Ingestion insert (`fetch_anilist.py` lines 55-62)

The fetch loop builds its row tuple with `mal_id = m["idMal"]`
(line 104) and AniList's `idMal` is nullable, so the first tuple slot
may be `None`.  The schema declares `mal_id INTEGER PRIMARY KEY`
(line 36), which in SQLite aliases the rowid: storing NULL there is not
a constraint conflict — SQLite substitutes a fresh rowid (one larger
than the largest in use, 1 for an empty table) — so `OR IGNORE` only
fires when the supplied integer id is already present.  Stored rows
(`Row` above) therefore always carry an integer id; fetched tuples may
not. -/

/-- A fetched row tuple (fetch_anilist.py lines 126-129): like `Row` but
with the possibly-null `idMal` in the id slot. -/
structure FetchRow where
  mal_id : Option Int
  title : String
  year : Int
  rating : Rat
  cant_episodes : Int
  duration_per_episode : Int
  type : String
  genre : String
  demographic : String
  season : String
  source : String
  studio : String
  favourites : Int
  description : String
  cover_url : String
deriving DecidableEq, Repr

/-- The stored row a fetched tuple produces once SQLite has settled the
id column to the integer `i`. -/
def storeAs (f : FetchRow) (i : Int) : Row :=
  { mal_id := i, title := f.title, year := f.year, rating := f.rating,
    cant_episodes := f.cant_episodes,
    duration_per_episode := f.duration_per_episode, type := f.type,
    genre := f.genre, demographic := f.demographic, season := f.season,
    source := f.source, studio := f.studio, favourites := f.favourites,
    description := f.description, cover_url := f.cover_url }

/-- Largest rowid in use (0 when the table is empty, so the next is 1). -/
def maxId (tbl : List Row) : Int := tbl.foldl (fun m x => max m x.mal_id) 0

/-- The rowid SQLite auto-assigns when NULL is inserted into a rowid
alias column: one larger than the largest in use, 1 for an empty
table. -/
def nextRowid (tbl : List Row) : Int := maxId tbl + 1

/-- One `insert(row)` call (fetch_anilist.py lines 55-62): `INSERT OR
IGNORE` drops the row only on a conflict, i.e. when its integer id is
already present; a NULL id raises no conflict and is stored under a
fresh auto-assigned rowid. -/
def insert (tbl : List Row) (f : FetchRow) : List Row :=
  match f.mal_id with
  | none => tbl ++ [storeAs f (nextRowid tbl)]
  | some i =>
    if tbl.any (fun x => x.mal_id == i) then tbl else tbl ++ [storeAs f i]

/-- Inserting a sequence of fetched rows, in order. -/
def insertAll (tbl : List Row) (rs : List FetchRow) : List Row := rs.foldl insert tbl

/-! ## Filtered query builder (`AnimeDB.search_remaining`, cli lines 91-153)

The builder produces SQL text.  We embed it in two layers, as the source
does: the strings the Python code builds (conditions paired with their
bound parameter, and ORDER BY items), and SQLite's execution of those
strings (a parser of the condition grammar `column operator ?`, which
rejects malformed fragments exactly as SQLite's SQL parser does, plus
evaluation over rows). -/

/-- Values a filter can carry (Python, via typer: str, int, float, bool). -/
inductive FVal
  | s (v : String)
  | i (v : Int)
  | q (v : Rat)
  | b (v : Bool)
deriving DecidableEq, Repr

/-- Python truthiness of a filter value (`... and value`): empty string,
zero and False are falsy. -/
def fvTruthy : FVal → Bool
  | .s v => v != ""
  | .i v => v != 0
  | .q v => v != 0
  | .b v => v

/-- The f-string `f"%{value}%"` wrapping used for LIKE parameters. -/
def wrapLike : FVal → FVal
  | .s v => .s ("%" ++ v ++ "%")
  | v => v

/-- The `filter_conditions` list (cli lines 104-128), each condition
string paired with the parameter appended for its placeholder.  The
`studio` branch reproduces the source's fragment verbatim, including its
`LIKE = ?`.  Keys matching no branch are ignored. -/
def condPairs : List (String × FVal) → List (String × FVal)
  | [] => []
  | (k, v) :: rest =>
    let tail := condPairs rest
    if fvTruthy v then
      if k == "genre" then ("genre LIKE ?", wrapLike v) :: tail
      else if k == "type" then ("type = ?", v) :: tail
      else if k == "duration_min" then ("duration_per_episode >= ?", v) :: tail
      else if k == "duration_max" then ("duration_per_episode <= ?", v) :: tail
      else if k == "rating_min" then ("rating >= ?", v) :: tail
      else if k == "demographic" then ("demographic = ?", v) :: tail
      else if k == "source" then ("source = ?", v) :: tail
      else if k == "studio" then ("studio LIKE = ?", wrapLike v) :: tail
      else tail
    else tail

/-- The `order_clause` list (cli lines 130-141), in the order the filter
entries are received.  The condition keys and order keys are disjoint, so
splitting the source's single elif chain into `condPairs` and `orderStrs`
preserves its behavior. -/
def orderStrs : List (String × FVal) → List String
  | [] => []
  | (k, v) :: rest =>
    (if fvTruthy v then
      if k == "most_popular" then ["favourites DESC"]
      else if k == "least_popular" then ["favourites ASC"]
      else if k == "most_episodes" then ["cant_episodes DESC"]
      else if k == "least_episodes" then ["cant_episodes ASC"]
      else if k == "longest" then ["(cant_episodes * duration_per_episode) DESC"]
      else if k == "shortest" then ["(cant_episodes * duration_per_episode) ASC"]
      else []
    else []) ++ orderStrs rest

/-- Space-separated tokens of a SQL fragment. -/
def tokensAux : List Char → List Char → List String
  | [], acc => if acc.isEmpty then [] else [String.mk acc.reverse]
  | c :: cs, acc =>
    if c == ' ' then
      if acc.isEmpty then tokensAux cs []
      else String.mk acc.reverse :: tokensAux cs []
    else tokensAux cs (c :: acc)

/-- Tokens of a SQL fragment, split on spaces. -/
def sqlTokens (s : String) : List String := tokensAux s.toList []

/-- A well-formed WHERE condition of the dialect the builder intends:
`column operator ?`. -/
structure CondAst where
  col : String
  op : String
deriving DecidableEq, Repr

/-- Columns of the `anime` table. -/
def sqlCols : List String :=
  ["mal_id", "title", "year", "rating", "cant_episodes", "duration_per_episode",
   "type", "genre", "demographic", "season", "source", "studio", "favourites",
   "description", "cover_url"]

/-- SQLite's parse of a condition fragment: exactly three tokens
`column operator ?` with a known column and a binary comparison operator;
anything else (such as `studio LIKE = ?`, where a second operator follows
`LIKE` in place of an expression) is a SQL syntax error, modelled as
`none`. -/
def parseCond (s : String) : Option CondAst :=
  match sqlTokens s with
  | [c, op, ph] =>
    if ph == "?" && sqlCols.contains c && ["=", "LIKE", ">=", "<="].contains op then
      some ⟨c, op⟩
    else none
  | _ => none

/-- SQLite LIKE matching over characters: `%` matches any run, `_` any
single character, letters ASCII-case-insensitively. -/
def likeChars : List Char → List Char → Bool
  | [], [] => true
  | [], _ :: _ => false
  | '%' :: ps, s =>
    likeChars ps s ||
      (match s with
       | [] => false
       | _ :: s' => likeChars ('%' :: ps) s')
  | '_' :: ps, _ :: s => likeChars ps s
  | '_' :: _, [] => false
  | p :: ps, c :: s => (p.toLower == c.toLower) && likeChars ps s
  | _ :: _, [] => false
termination_by ps s => (s.length, ps.length)

/-- SQLite LIKE on strings. -/
def likeB (pat s : String) : Bool := likeChars pat.toList s.toList

/-- Evaluation of one parsed condition with its bound parameter against a
row.  Returns `none` when the fragment does not parse (SQL syntax error)
or the column/operator/parameter combination is not one the builder
produces. -/
def evalCond : String × FVal → Option (Row → Bool) := fun (c, v) =>
  match parseCond c with
  | none => none
  | some a =>
    match a.col, a.op, v with
    | "genre", "LIKE", .s p => some (fun r => likeB p r.genre)
    | "type", "=", .s x => some (fun r => r.type == x)
    | "duration_per_episode", ">=", .i n =>
        some (fun r => decide (n ≤ r.duration_per_episode))
    | "duration_per_episode", "<=", .i n =>
        some (fun r => decide (r.duration_per_episode ≤ n))
    | "rating", ">=", .q x => some (fun r => decide (x ≤ r.rating))
    | "demographic", "=", .s x => some (fun r => r.demographic == x)
    | "source", "=", .s x => some (fun r => r.source == x)
    | "studio", "LIKE", .s p => some (fun r => likeB p r.studio)
    | _, _, _ => none

/-- The three ORDER BY key expressions the builder can emit. -/
inductive OrdKey
  | fav
  | eps
  | runtime
deriving DecidableEq, Repr

/-- Sort direction. -/
inductive OrdDir
  | asc
  | desc
deriving DecidableEq, Repr

/-- Value of an ORDER BY key expression on a row. -/
def keyVal : OrdKey → Row → Int
  | .fav, r => r.favourites
  | .eps, r => r.cant_episodes
  | .runtime, r => r.cant_episodes * r.duration_per_episode

/-- The SQL text of an ORDER BY item. -/
def orderItemStr : OrdKey × OrdDir → String
  | (.fav, .desc) => "favourites DESC"
  | (.fav, .asc) => "favourites ASC"
  | (.eps, .desc) => "cant_episodes DESC"
  | (.eps, .asc) => "cant_episodes ASC"
  | (.runtime, .desc) => "(cant_episodes * duration_per_episode) DESC"
  | (.runtime, .asc) => "(cant_episodes * duration_per_episode) ASC"

/-- Parse a sort direction keyword. -/
def parseOrderDir (d : String) : Option OrdDir :=
  if d == "ASC" then some .asc else if d == "DESC" then some .desc else none

/-- SQLite's parse of one ORDER BY item of the dialect the builder emits. -/
def parseOrderItem (s : String) : Option (OrdKey × OrdDir) :=
  match sqlTokens s with
  | [e, d] =>
    if e == "favourites" then (parseOrderDir d).map (fun x => (.fav, x))
    else if e == "cant_episodes" then (parseOrderDir d).map (fun x => (.eps, x))
    else none
  | ["(cant_episodes", "*", "duration_per_episode)", d] =>
    (parseOrderDir d).map (fun x => (.runtime, x))
  | _ => none

/-- The semantic sort keys of a filter list, in the order received;
mirrors `orderStrs`. -/
def sortKeysOf : List (String × FVal) → List (OrdKey × OrdDir)
  | [] => []
  | (k, v) :: rest =>
    (if fvTruthy v then
      if k == "most_popular" then [(.fav, .desc)]
      else if k == "least_popular" then [(.fav, .asc)]
      else if k == "most_episodes" then [(.eps, .desc)]
      else if k == "least_episodes" then [(.eps, .asc)]
      else if k == "longest" then [(.runtime, .desc)]
      else if k == "shortest" then [(.runtime, .asc)]
      else []
    else []) ++ sortKeysOf rest

/-- Strict comparison on one ORDER BY key (direction-aware). -/
def keyLtB : OrdKey × OrdDir → Row → Row → Bool
  | (kk, .asc), a, b => decide (keyVal kk a < keyVal kk b)
  | (kk, .desc), a, b => decide (keyVal kk b < keyVal kk a)

/-- Equality on one ORDER BY key. -/
def keyEqB (k : OrdKey × OrdDir) (a b : Row) : Bool :=
  keyVal k.1 a == keyVal k.1 b

/-- Multi-key lexicographic "comes no later than": first key decides,
ties fall to the next key. -/
def lexLe : List (OrdKey × OrdDir) → Row → Row → Bool
  | [], _, _ => true
  | k :: ks, a, b => keyLtB k a b || (keyEqB k a b && lexLe ks a b)

/-- `lexLe` as a relation. -/
def lexRel (ks : List (OrdKey × OrdDir)) (a b : Row) : Prop := lexLe ks a b = true

instance (ks : List (OrdKey × OrdDir)) : DecidableRel (lexRel ks) :=
  fun a b => inferInstanceAs (Decidable (lexLe ks a b = true))

/-- `ORDER BY rating DESC`. -/
def ratingRel (a b : Row) : Prop := b.rating ≤ a.rating

instance : DecidableRel ratingRel :=
  fun a b => inferInstanceAs (Decidable (b.rating ≤ a.rating))

/-- SQL execution errors the model distinguishes. -/
inductive SqlErr
  | syntaxError
deriving DecidableEq, Repr

/-- `WHERE year = ? AND mal_id NOT IN (watched)` (cli lines 93-98), in
table scan order. -/
def baseRows (tbl : List Row) (watched : List Int) (y : Int) : List Row :=
  tbl.filter (fun r => r.year == y && !(watched.contains r.mal_id))

/-- `AnimeDB.search_remaining` (cli lines 91-153): the dynamic query,
built and then executed.  With a falsy/empty filter dict the `if
filters:` block is skipped entirely, so no conditions and no ORDER BY
are appended; otherwise conditions are ANDed, and the ORDER BY is the
collected sort keys, or `rating DESC` when none was requested.  A
condition fragment that does not parse is a SQL syntax error. -/
def searchRemaining (tbl : List Row) (watched : List Int) (y : Int)
    (fs : List (String × FVal)) : Except SqlErr (List Row) :=
  if fs.isEmpty then .ok (baseRows tbl watched y)
  else
    match (condPairs fs).mapM evalCond with
    | none => .error .syntaxError
    | some preds =>
      match (orderStrs fs).mapM parseOrderItem with
      | none => .error .syntaxError
      | some ks =>
        if ks.isEmpty then
          .ok (List.insertionSort ratingRel
            ((baseRows tbl watched y).filter (fun r => preds.all (fun p => p r))))
        else
          .ok (List.insertionSort (lexRel ks)
            ((baseRows tbl watched y).filter (fun r => preds.all (fun p => p r))))

/-! ## The `year` command's filter dict (cli lines 206-256) -/

/-- The optional flags of the `year` subcommand. -/
structure YearArgs where
  genre : Option String
  type : Option String
  min_rating : Option Rat
  max_duration : Option Int
  min_duration : Option Int
  studio : Option String
  demographic : Option String
  source : Option String
  most_popular : Bool
  least_popular : Bool
  most_episodes : Bool
  least_episodes : Bool
  longest : Bool
  shortest : Bool
deriving DecidableEq, Repr

/-- `if flag: filters[key] = flag` for a string flag (None and "" falsy). -/
def optS (k : String) (v : Option String) : List (String × FVal) :=
  match v with
  | none => []
  | some x => if x == "" then [] else [(k, .s x)]

/-- Same for a float flag (None and 0 falsy). -/
def optQ (k : String) (v : Option Rat) : List (String × FVal) :=
  match v with
  | none => []
  | some x => if x == 0 then [] else [(k, .q x)]

/-- Same for an int flag (None and 0 falsy). -/
def optI (k : String) (v : Option Int) : List (String × FVal) :=
  match v with
  | none => []
  | some x => if x == 0 then [] else [(k, .i x)]

/-- Same for a boolean flag. -/
def optB (k : String) (v : Bool) : List (String × FVal) :=
  if v then [(k, .b true)] else []

/-- The filter dict built by the `year` command (cli lines 228-256), in
the fixed insertion order of its if-chain. -/
def mkFilters (a : YearArgs) : List (String × FVal) :=
  optS "genre" a.genre ++ optS "type" a.type ++ optQ "rating_min" a.min_rating ++
  optI "duration_max" a.max_duration ++ optI "duration_min" a.min_duration ++
  optS "studio" a.studio ++ optS "demographic" a.demographic ++
  optS "source" a.source ++ optB "most_popular" a.most_popular ++
  optB "least_popular" a.least_popular ++ optB "most_episodes" a.most_episodes ++
  optB "least_episodes" a.least_episodes ++ optB "longest" a.longest ++
  optB "shortest" a.shortest

/-! ## Progress reporting -/

/-- `AnimeDB.get_anime_by_year` (cli lines 50-58): the year's rows,
`ORDER BY rating DESC`. -/
def get_anime_by_year (tbl : List Row) (y : Int) : List Row :=
  List.insertionSort ratingRel (tbl.filter (fun r => r.year == y))

/-- The `SELECT year, COUNT(*) ... GROUP BY year HAVING total > 0 ORDER
BY year` scaffold of `get_year_progress`: the distinct years, ascending.
Rows' years are non-null in the model, matching `WHERE year IS NOT
NULL`. -/
def yearsOf (tbl : List Row) : List Int :=
  List.insertionSort (· ≤ ·) ((tbl.map (fun r => r.year)).dedup)

/-- One entry of the progress report. -/
structure YearProgress where
  year : Int
  watched : Nat
  total : Nat
  remaining : Nat
  percent : Rat
deriving DecidableEq, Repr

/-- The body of `get_year_progress`'s per-year loop (cli lines 71-87):
`total` from the grouped COUNT, watched/remaining counted over the
year's list, percent guarded by `total > 0`. -/
def ypOf (tbl : List Row) (watchedIds : List Int) (y : Int) : YearProgress :=
  let total := (tbl.filter (fun r => r.year == y)).length
  let year_list := get_anime_by_year tbl y
  let watched := (year_list.filter (fun a => watchedIds.contains a.mal_id)).length
  let remaining := (year_list.filter (fun a => !(watchedIds.contains a.mal_id))).length
  { year := y, watched := watched, total := total, remaining := remaining,
    percent := if 0 < total then (watched : Rat) / (total : Rat) * 100 else 0 }

/-- `AnimeDB.get_year_progress` (cli lines 60-89). -/
def get_year_progress (tbl : List Row) (watchedIds : List Int) : List YearProgress :=
  ((yearsOf tbl).filter
      (fun y => decide (0 < (tbl.filter (fun r => r.year == y)).length))).map
    (ypOf tbl watchedIds)

/-- The tuple `compare_year` returns (progression lines 43-48), with
named components. -/
structure CompareResult where
  year : Int
  completed : Nat
  total : Nat
  percent : Rat
  remaining : List Row
deriving Repr

/-- `compare_year` (progression lines 43-48). -/
def compare_year (y : Int) (watchedIds : List Int) (year_list : List Row) :
    CompareResult :=
  let total := year_list.length
  let remaining := year_list.filter (fun a => !(watchedIds.contains a.mal_id))
  let completed := total - remaining.length
  { year := y, completed := completed, total := total,
    percent := if 0 < total then (completed : Rat) / (total : Rat) * 100 else 0,
    remaining := remaining }

/-! ## Ingestion fetch-loop backoff (`fetch_anilist.py` lines 65-97) -/

/-- One iteration's outcome, as the loop body distinguishes them:
a transport/JSON exception (sleep 5, retry, `wait_time` untouched); a
reported error with status 429 (sleep `wait_time`, then
`wait_time = min(wait_time * 2, 20)`); another reported error (break);
or a normal response (`wait_time = 1`). -/
inductive ApiResp
  | exn
  | rateLimited
  | apiError
  | success (hasNext : Bool)
deriving DecidableEq, Repr

/-- The `wait_time` update a single loop iteration performs. -/
def stepWait (w : Nat) : ApiResp → Nat
  | .exn => w
  | .rateLimited => min (w * 2) 20
  | .apiError => w
  | .success _ => 1

/-- `wait_time` after a sequence of iterations, starting from the base
interval 1 set at line 68. -/
def waitAfter (resps : List ApiResp) : Nat := resps.foldl stepWait 1

/-! ## Concrete inputs used by witnesses and counterexamples -/

/-- Two rows for year 2020 stored in ascending-rating order. -/
def tblC2 : List Row := [mkRow 1 2020 1 0 1 1, mkRow 2 2020 9 0 1 1]

/-- A one-row table for the studio-filter run. -/
def tblC3 : List Row := [mkRow 1 2020 5 0 1 1]

/-- Two rows in year 2020, one watched. -/
def tblC5 : List Row := [mkRow 1 2020 5 0 1 1, mkRow 2 2020 7 0 1 1]

/-- Three rows for the multi-key sort: two tied on favourites with
different episode counts, one with fewer favourites. -/
def tblC7 : List Row := [mkRow 1 2020 5 5 12 10, mkRow 2 2020 5 5 2 10, mkRow 3 2020 5 3 1 10]

/-- Filters holding two sort options: `--most-popular --least-episodes`. -/
def fsC7 : List (String × FVal) :=
  [("most_popular", FVal.b true), ("least_episodes", FVal.b true)]

/-- Fetched-row builder for concrete examples: id, year, rating,
favourites, episode count, duration. -/
def mkFetch (id : Option Int) (y : Int) (ra : Rat) (fa ep du : Int) : FetchRow :=
  { mal_id := id, title := "t", year := y, rating := ra, cant_episodes := ep,
    duration_per_episode := du, type := "TV", genre := "Action",
    demographic := "", season := "", source := "", studio := "",
    favourites := fa, description := "", cover_url := "" }

/-- A fetched record whose `idMal` came back null. -/
def fNull : FetchRow := mkFetch none 2020 5 0 1 1

/-- A fetched record with a present integer id. -/
def fGood : FetchRow := mkFetch (some 7) 2020 5 0 1 1


/-! ## Theorems -/

/-- On a successful run, an id is in the result exactly when some record
contributes it: the record's id element has text parsing to that id and
its status passes the watched test. -/
theorem loadAux_mem (i : Int) (doc : List MalRecord) : ∀ l : List Int,
    loadAux doc = some l →
    (i ∈ l ↔ ∃ r ∈ doc, ∃ s : String, r.series_animedb_id = some (some s) ∧
        pyInt s = some i ∧ recordWatched r = true) := by
  induction doc with
  | nil =>
    intro l h
    simp only [loadAux, Option.some.injEq] at h
    subst h
    simp
  | cons r rs ih =>
    intro l h
    simp only [loadAux] at h
    cases hid : r.series_animedb_id with
    | none =>
      simp only [hid] at h
      rw [ih l h]
      constructor
      · rintro ⟨r', hr', hrest⟩
        exact ⟨r', List.mem_cons_of_mem _ hr', hrest⟩
      · rintro ⟨r', hr', s, hs, hrest⟩
        rcases List.mem_cons.mp hr' with rfl | hr'
        · rw [hid] at hs; cases hs
        · exact ⟨r', hr', s, hs, hrest⟩
    | some o =>
      cases o with
      | none =>
        simp only [hid] at h
        rw [ih l h]
        constructor
        · rintro ⟨r', hr', hrest⟩
          exact ⟨r', List.mem_cons_of_mem _ hr', hrest⟩
        · rintro ⟨r', hr', s, hs, hrest⟩
          rcases List.mem_cons.mp hr' with rfl | hr'
          · rw [hid] at hs; cases hs
          · exact ⟨r', hr', s, hs, hrest⟩
      | some s =>
        simp only [hid] at h
        cases hpi : pyInt s with
        | none => exact Option.noConfusion (hpi ▸ h)
        | some j =>
          simp only [hpi] at h
          cases hw : recordWatched r with
          | false =>
            simp only [hw, Bool.false_eq_true, if_false] at h
            rw [ih l h]
            constructor
            · rintro ⟨r', hr', hrest⟩
              exact ⟨r', List.mem_cons_of_mem _ hr', hrest⟩
            · rintro ⟨r', hr', s', hs', hpi', hw'⟩
              rcases List.mem_cons.mp hr' with rfl | hr'
              · rw [hw] at hw'; cases hw'
              · exact ⟨r', hr', s', hs', hpi', hw'⟩
          | true =>
            simp only [hw, if_true] at h
            cases htl : loadAux rs with
            | none => rw [htl] at h; exact Option.noConfusion h
            | some l' =>
              simp only [htl, Option.map_some', Option.some.injEq] at h
              subst h
              rw [List.mem_cons, ih l' htl]
              constructor
              · rintro (rfl | ⟨r', hr', hrest⟩)
                · exact ⟨r, List.mem_cons_self r rs, s, hid, hpi, hw⟩
                · exact ⟨r', List.mem_cons_of_mem _ hr', hrest⟩
              · rintro ⟨r', hr', s', hs', hpi', hw'⟩
                rcases List.mem_cons.mp hr' with rfl | hr'
                · rw [hid] at hs'
                  cases hs'
                  rw [hpi] at hpi'
                  cases hpi'
                  exact Or.inl rfl
                · exact Or.inr ⟨r', hr', s', hs', hpi', hw'⟩

/-- C1: for every export input on which the loader completes normally,
an id is in the watched set iff some record has that id and a `my_status`
text that, after stripping, equals "completed" case-insensitively or the
literal "2"; in particular every record whose `series_animedb_id` element
is missing or has no text contributes nothing, whatever its status, since
any member of the set comes from a record with a present id text. -/
theorem C1_watched_classification (doc : List MalRecord) (l : List Int)
    (h : loadAux doc = some l) (i : Int) :
    i ∈ load_mal_watched (Except.ok doc) ↔
      ∃ r ∈ doc, ∃ s : String, r.series_animedb_id = some (some s) ∧
        pyInt s = some i ∧ recordWatched r = true := by
  have hload : load_mal_watched (Except.ok doc) = l := by
    simp [load_mal_watched, h]
  rw [hload]
  exact loadAux_mem i doc l h

/-- Witness for C1 at a concrete export: the loader returns exactly
the watched id 10 and the classification equivalence holds there. -/
theorem C1_witness :
    (10 : Int) ∈ load_mal_watched (Except.ok wdocGood) ↔
      ∃ r ∈ wdocGood, ∃ s : String, r.series_animedb_id = some (some s) ∧
        pyInt s = some 10 ∧ recordWatched r = true :=
  C1_watched_classification wdocGood [10] (by decide) 10

/-- C6 counterexample: the claim says every entry point's loader catches
file-level parse errors and returns an empty watched set, but the
comparison script's loader (`progression.py`, no try/except) propagates
the error and the script aborts. -/
theorem C6_counterexample :
    progressionLoad (Except.error PErr.parseError) ≠ Except.ok ([] : List Int) ∧
    progressionLoad (Except.error PErr.parseError) = Except.error PErr.parseError :=
  ⟨fun h => Except.noConfusion h, rfl⟩

/-- C6 amended: the CLI's loader catches any file-level parse error and
returns the empty watched set, execution continuing; the comparison
script's loader does not catch it and propagates the error. -/
theorem C6_amended :
    (∀ e : PErr, load_mal_watched (Except.error e) = []) ∧
    (∀ e : PErr, progressionLoad (Except.error e) = Except.error e) :=
  ⟨fun _ => rfl, fun _ => rfl⟩

/-- If any record of the document has an id text that `int(...)` rejects,
the whole record loop aborts. -/
theorem loadAux_none_of_bad (doc : List MalRecord) (r : MalRecord)
    (hmem : r ∈ doc) (s : String) (hid : r.series_animedb_id = some (some s))
    (hbad : pyInt s = none) : loadAux doc = none := by
  induction doc with
  | nil => cases hmem
  | cons r' rs ih =>
    rcases List.mem_cons.mp hmem with rfl | hmem'
    · simp only [loadAux, hid, hbad]
    · have htl := ih hmem'
      cases hid' : r'.series_animedb_id with
      | none => simp [loadAux, hid', htl]
      | some o =>
        cases o with
        | none => simp [loadAux, hid', htl]
        | some s' =>
          cases hpi : pyInt s' with
          | none => simp [loadAux, hid', hpi]
          | some j =>
            cases hw : recordWatched r' <;> simp [loadAux, hid', hpi, hw, htl]

/-- C10: if any single record has a present but non-integer id text, the
CLI's loader raises inside the file-level handler and returns the empty
watched set — every validly encoded record in the file is discarded
alongside the malformed one. -/
theorem C10_malformed_id_discards_all (doc : List MalRecord) (r : MalRecord)
    (hmem : r ∈ doc) (s : String) (hid : r.series_animedb_id = some (some s))
    (hbad : pyInt s = none) :
    load_mal_watched (Except.ok doc) = [] := by
  have h := loadAux_none_of_bad doc r hmem s hid hbad
  simp [load_mal_watched, h]

/-- Witness for C10: with one malformed id in the file, the loader
returns the empty set even though the file also holds a valid
completed record. -/
theorem C10_witness : load_mal_watched (Except.ok wdocBad) = [] :=
  C10_malformed_id_discards_all wdocBad
    ⟨some (some "x"), some (some "2")⟩ (by decide) "x" rfl (by decide)

/-- C2 counterexample: with no filters at all the builder never reaches
the `ORDER BY rating DESC` default (it sits inside `if filters:`), so
the rows come back in table order — here ascending in rating, not
descending. -/
theorem C2_counterexample :
    searchRemaining tblC2 [] 2020 [] =
      Except.ok [mkRow 1 2020 1 0 1 1, mkRow 2 2020 9 0 1 1] ∧
    ¬ List.Sorted ratingRel [mkRow 1 2020 1 0 1 1, mkRow 2 2020 9 0 1 1] := by
  constructor
  · rfl
  · intro hs
    have h := (List.sorted_cons.mp hs).1 _ (List.mem_cons_self _ _)
    simp only [ratingRel, mkRow] at h
    norm_num at h

/-- C2 amended: with no filters at all, the query returns exactly the
year's rows whose ids are absent from the watched set, in table order —
no ORDER BY clause is emitted, so no rating-descending ordering is
applied (the rating default only arises when at least one filter option
is present). -/
theorem C2_no_filters_unordered (tbl : List Row) (watched : List Int) (y : Int) :
    searchRemaining tbl watched y [] =
      Except.ok (tbl.filter (fun r => r.year == y && !(watched.contains r.mal_id))) :=
  rfl

/-- C3: the spec intends a substring studio match, but the builder emits
the fragment `studio LIKE = ?` (cli line 127) — two operators in a row —
which is a SQL syntax error, so any run with a non-empty studio filter
fails instead of returning matching rows.  The parallel genre fragment
parses fine under the same grammar, isolating the typo. -/
theorem C3_studio_filter_is_broken :
    condPairs [("studio", FVal.s "Ghibli")] =
      [("studio LIKE = ?", FVal.s "%Ghibli%")] ∧
    parseCond "studio LIKE = ?" = none ∧
    parseCond "genre LIKE ?" = some ⟨"genre", "LIKE"⟩ ∧
    searchRemaining tblC3 [] 2020 [("studio", FVal.s "Ghibli")] =
      Except.error SqlErr.syntaxError :=
  ⟨rfl, by decide, by decide, rfl⟩

/-- `orderStrs` emits exactly the SQL text of the semantic sort keys, in
the order the filter entries are received. -/
theorem orderStrs_eq_map (fs : List (String × FVal)) :
    orderStrs fs = (sortKeysOf fs).map orderItemStr := by
  induction fs with
  | nil => rfl
  | cons kv rest ih =>
    obtain ⟨k, v⟩ := kv
    simp only [orderStrs, sortKeysOf, List.map_append, ih]
    congr 1
    by_cases h : fvTruthy v = true
    · simp only [h, if_true]
      split_ifs <;> rfl
    · simp [h]

/-- Each emitted ORDER BY item parses back to its semantic key. -/
theorem parseOrderItem_roundtrip (x : OrdKey × OrdDir) :
    parseOrderItem (orderItemStr x) = some x := by
  obtain ⟨k, d⟩ := x
  cases k <;> cases d <;> rfl

/-- Mapping a parse over emitted items succeeds and recovers them all. -/
theorem mapM_parse_of_map (l : List (OrdKey × OrdDir)) :
    (l.map orderItemStr).mapM parseOrderItem = some l := by
  induction l with
  | nil => rfl
  | cons x xs ih =>
    rw [List.map_cons, List.mapM_cons, parseOrderItem_roundtrip, ih]
    rfl

/-- The builder's whole ORDER BY list parses back to `sortKeysOf`. -/
theorem mapM_parse_orderStrs (fs : List (String × FVal)) :
    (orderStrs fs).mapM parseOrderItem = some (sortKeysOf fs) := by
  rw [orderStrs_eq_map]
  exact mapM_parse_of_map _

/-- The multi-key comparator is total. -/
theorem lexLe_total (ks : List (OrdKey × OrdDir)) (a b : Row) :
    lexLe ks a b = true ∨ lexLe ks b a = true := by
  induction ks with
  | nil => exact Or.inl rfl
  | cons k ks ih =>
    obtain ⟨kk, d⟩ := k
    simp only [lexLe, Bool.or_eq_true, Bool.and_eq_true]
    cases d with
    | asc =>
      rcases lt_trichotomy (keyVal kk a) (keyVal kk b) with h | h | h
      · exact Or.inl (Or.inl (by simp [keyLtB, h]))
      · rcases ih with h' | h'
        · exact Or.inl (Or.inr ⟨by simp [keyEqB, h], h'⟩)
        · exact Or.inr (Or.inr ⟨by simp [keyEqB, h], h'⟩)
      · exact Or.inr (Or.inl (by simp [keyLtB, h]))
    | desc =>
      rcases lt_trichotomy (keyVal kk a) (keyVal kk b) with h | h | h
      · exact Or.inr (Or.inl (by simp [keyLtB, h]))
      · rcases ih with h' | h'
        · exact Or.inl (Or.inr ⟨by simp [keyEqB, h], h'⟩)
        · exact Or.inr (Or.inr ⟨by simp [keyEqB, h], h'⟩)
      · exact Or.inl (Or.inl (by simp [keyLtB, h]))

/-- The multi-key comparator is transitive. -/
theorem lexLe_trans (ks : List (OrdKey × OrdDir)) (a b c : Row) :
    lexLe ks a b = true → lexLe ks b c = true → lexLe ks a c = true := by
  induction ks with
  | nil => intro _ _; rfl
  | cons k ks ih =>
    obtain ⟨kk, d⟩ := k
    intro hab hbc
    cases d with
    | asc =>
      simp only [lexLe, Bool.or_eq_true, Bool.and_eq_true, keyLtB, keyEqB,
        decide_eq_true_eq, beq_iff_eq] at hab hbc ⊢
      rcases hab with h1 | ⟨h1, h1'⟩ <;> rcases hbc with h2 | ⟨h2, h2'⟩
      · exact Or.inl (lt_trans h1 h2)
      · exact Or.inl (h2 ▸ h1)
      · exact Or.inl (h1 ▸ h2)
      · exact Or.inr ⟨h1.trans h2, ih h1' h2'⟩
    | desc =>
      simp only [lexLe, Bool.or_eq_true, Bool.and_eq_true, keyLtB, keyEqB,
        decide_eq_true_eq, beq_iff_eq] at hab hbc ⊢
      rcases hab with h1 | ⟨h1, h1'⟩ <;> rcases hbc with h2 | ⟨h2, h2'⟩
      · exact Or.inl (lt_trans h2 h1)
      · exact Or.inl (h2 ▸ h1)
      · exact Or.inl (h1 ▸ h2)
      · exact Or.inr ⟨h1.trans h2, ih h1' h2'⟩

instance (ks : List (OrdKey × OrdDir)) : IsTotal Row (lexRel ks) :=
  ⟨fun a b => lexLe_total ks a b⟩

instance (ks : List (OrdKey × OrdDir)) : IsTrans Row (lexRel ks) :=
  ⟨fun a b c => lexLe_trans ks a b c⟩

/-- C7: when the received filters carry two or more sort options, the
builder appends all of them as one multi-key ORDER BY in the order
received — not mutually exclusive — and a successful run's result list
is sorted by that lexicographic order: the first supplied key decides,
ties fall to the second. -/
theorem C7_multi_key_order (tbl : List Row) (watched : List Int) (y : Int)
    (fs : List (String × FVal)) (l : List Row)
    (hok : searchRemaining tbl watched y fs = Except.ok l)
    (k1 k2 : OrdKey × OrdDir) (ks : List (OrdKey × OrdDir))
    (hkeys : sortKeysOf fs = k1 :: k2 :: ks) :
    orderStrs fs = orderItemStr k1 :: orderItemStr k2 :: ks.map orderItemStr ∧
    List.Sorted (lexRel (k1 :: k2 :: ks)) l := by
  have hstrs : orderStrs fs =
      orderItemStr k1 :: orderItemStr k2 :: ks.map orderItemStr := by
    rw [orderStrs_eq_map, hkeys]
    rfl
  refine ⟨hstrs, ?_⟩
  have hfs : ¬ (fs.isEmpty = true) := by
    cases fs with
    | nil => simp [sortKeysOf] at hkeys
    | cons a as => simp
  rw [searchRemaining, if_neg hfs] at hok
  cases hc : (condPairs fs).mapM evalCond with
  | none => rw [hc] at hok; exact Except.noConfusion hok
  | some preds =>
    rw [hc, mapM_parse_orderStrs fs, hkeys] at hok
    simp only [List.isEmpty_cons, Bool.false_eq_true, if_false,
      Except.ok.injEq] at hok
    subst hok
    exact List.sorted_insertionSort _ _

/-- Witness for C7: with `--most-popular --least-episodes` supplied
together, both ORDER BY items are emitted in that order, and the result
puts the favourites-5 rows first with their tie broken by fewer
episodes. -/
theorem C7_witness :
    orderStrs fsC7 =
      orderItemStr (OrdKey.fav, OrdDir.desc) ::
        orderItemStr (OrdKey.eps, OrdDir.asc) :: List.map orderItemStr [] ∧
    List.Sorted (lexRel [(OrdKey.fav, OrdDir.desc), (OrdKey.eps, OrdDir.asc)])
      [mkRow 2 2020 5 5 2 10, mkRow 1 2020 5 5 12 10, mkRow 3 2020 5 3 1 10] :=
  C7_multi_key_order tblC7 [] 2020 fsC7
    [mkRow 2 2020 5 5 2 10, mkRow 1 2020 5 5 12 10, mkRow 3 2020 5 3 1 10]
    rfl (OrdKey.fav, OrdDir.desc) (OrdKey.eps, OrdDir.asc) [] rfl

/-- A table already holding a fetched row's integer id absorbs its
insert (`INSERT OR IGNORE` hits the primary-key conflict). -/
theorem insert_of_hasId (tbl : List Row) (f : FetchRow) (i : Int)
    (hid : f.mal_id = some i)
    (h : tbl.any (fun x => x.mal_id == i) = true) : insert tbl f = tbl := by
  simp [insert, hid, h]

/-- After inserting a row with integer id `i`, the id `i` is present. -/
theorem any_id_insert_self (tbl : List Row) (f : FetchRow) (i : Int)
    (hid : f.mal_id = some i) :
    (insert tbl f).any (fun x => x.mal_id == i) = true := by
  by_cases h : tbl.any (fun x => x.mal_id == i) = true
  · rw [insert_of_hasId tbl f i hid h]; exact h
  · simp [insert, hid, h, List.any_append, storeAs]

/-- Inserting any fetched row never removes a present id. -/
theorem any_id_insert_mono (tbl : List Row) (f : FetchRow) (i : Int)
    (h : tbl.any (fun x => x.mal_id == i) = true) :
    (insert tbl f).any (fun x => x.mal_id == i) = true := by
  cases hid : f.mal_id with
  | none => simp [insert, hid, List.any_append, h]
  | some j =>
    by_cases hc : tbl.any (fun x => x.mal_id == j) = true
    · simpa [insert_of_hasId tbl f j hid hc] using h
    · simp [insert, hid, hc, List.any_append, h]

/-- A present id survives a whole insertion pass. -/
theorem any_id_insertAll_mono (rs : List FetchRow) (tbl : List Row) (i : Int)
    (h : tbl.any (fun x => x.mal_id == i) = true) :
    (insertAll tbl rs).any (fun x => x.mal_id == i) = true := by
  induction rs generalizing tbl with
  | nil => exact h
  | cons r rs ih => exact ih (insert tbl r) (any_id_insert_mono tbl r i h)

/-- After a pass over `rs`, every non-null id of `rs` is present. -/
theorem any_id_insertAll_mem (rs : List FetchRow) :
    ∀ (tbl : List Row) (f : FetchRow) (i : Int), f ∈ rs → f.mal_id = some i →
      (insertAll tbl rs).any (fun x => x.mal_id == i) = true := by
  induction rs with
  | nil => intro tbl f i h _; cases h
  | cons a as ih =>
    intro tbl f i h hid
    rcases List.mem_cons.mp h with rfl | h'
    · exact any_id_insertAll_mono as (insert tbl f) i (any_id_insert_self tbl f i hid)
    · exact ih (insert tbl a) f i h' hid

/-- A pass whose rows all carry integer ids already present changes
nothing. -/
theorem insertAll_of_all (rs : List FetchRow) (tbl : List Row)
    (h : ∀ f ∈ rs, ∃ i, f.mal_id = some i ∧
        tbl.any (fun x => x.mal_id == i) = true) :
    insertAll tbl rs = tbl := by
  induction rs generalizing tbl with
  | nil => rfl
  | cons a as ih =>
    obtain ⟨i, hid, hi⟩ := h a (List.mem_cons_self a as)
    have ha : insert tbl a = tbl := insert_of_hasId tbl a i hid hi
    show insertAll (insert tbl a) as = tbl
    rw [ha]
    exact ih tbl (fun f hf => h f (List.mem_cons_of_mem _ hf))

/-- C4 counterexample: a fetched record whose `idMal` is null
(fetch_anilist.py line 104 passes it through unchecked) raises no
primary-key conflict — SQLite auto-assigns a fresh rowid — so inserting
the same record a second time appends a second row: the run that starts
from the first run's table has 2 rows where the first had 1, refuting
the universal idempotence claim. -/
theorem C4_null_id_counterexample :
    insertAll (insertAll [] [fNull]) [fNull] ≠ insertAll [] [fNull] ∧
    (insertAll [] [fNull]).length = 1 ∧
    (insertAll (insertAll [] [fNull]) [fNull]).length = 2 := by
  refine ⟨?_, rfl, rfl⟩
  decide

/-- C4 amended: ingestion inserts are idempotent for fetched records
whose `idMal` is non-null — for every starting table and every sequence
of such records, running the `INSERT OR IGNORE` pass a second time
returns the very same table (hence identical row count and contents),
because every record's integer id is present after the first pass.  A
record with null `idMal` is exempt: it is stored under a fresh
auto-assigned rowid on every pass. -/
theorem C4_nonnull_idempotent (tbl : List Row) (rs : List FetchRow)
    (h : ∀ f ∈ rs, f.mal_id ≠ none) :
    insertAll (insertAll tbl rs) rs = insertAll tbl rs := by
  refine insertAll_of_all rs (insertAll tbl rs) (fun f hf => ?_)
  cases hid : f.mal_id with
  | none => exact absurd hid (h f hf)
  | some i => exact ⟨i, rfl, any_id_insertAll_mem rs tbl f i hf hid⟩

/-- Witness for C4 at a concrete record with a present id: inserting it
twice from the empty table leaves the one-row table unchanged. -/
theorem C4_witness :
    insertAll (insertAll [] [fGood]) [fGood] = insertAll [] [fGood] :=
  C4_nonnull_idempotent [] [fGood] (by decide)

/-- Counting a predicate and its negation over a list covers it. -/
theorem length_filter_split {α : Type} (p : α → Bool) (l : List α) :
    (l.filter p).length + (l.filter (fun x => !(p x))).length = l.length := by
  induction l with
  | nil => rfl
  | cons x xs ih =>
    cases h : p x <;> simp [List.filter_cons, h] <;> omega

/-- C5: every entry of the CLI's per-year progress report satisfies
`watched + remaining = total` and `percent = watched/total*100` (0 when
total is 0), and the comparison script's `compare_year` satisfies the
same identities for every input. -/
theorem C5_progress_invariants :
    (∀ (tbl : List Row) (watchedIds : List Int) (e : YearProgress),
        e ∈ get_year_progress tbl watchedIds →
          e.watched + e.remaining = e.total ∧
          (0 < e.total → e.percent = (e.watched : Rat) / (e.total : Rat) * 100) ∧
          (e.total = 0 → e.percent = 0)) ∧
    (∀ (y : Int) (watchedIds : List Int) (year_list : List Row),
        (compare_year y watchedIds year_list).completed +
            (compare_year y watchedIds year_list).remaining.length =
          (compare_year y watchedIds year_list).total ∧
        (0 < (compare_year y watchedIds year_list).total →
          (compare_year y watchedIds year_list).percent =
            ((compare_year y watchedIds year_list).completed : Rat) /
              ((compare_year y watchedIds year_list).total : Rat) * 100) ∧
        ((compare_year y watchedIds year_list).total = 0 →
          (compare_year y watchedIds year_list).percent = 0)) := by
  constructor
  · intro tbl w e he
    obtain ⟨y, hy, rfl⟩ := List.mem_map.mp he
    refine ⟨?_, ?_, ?_⟩
    · show ((get_anime_by_year tbl y).filter
            (fun a => w.contains a.mal_id)).length +
          ((get_anime_by_year tbl y).filter
            (fun a => !(w.contains a.mal_id))).length =
          (tbl.filter (fun r => r.year == y)).length
      have h2 : (get_anime_by_year tbl y).length =
          (tbl.filter (fun r => r.year == y)).length := by
        simp [get_anime_by_year]
      rw [← h2]
      exact length_filter_split _ _
    · intro hpos
      have hpos' : 0 < (tbl.filter (fun r => r.year == y)).length := hpos
      show (if 0 < (tbl.filter (fun r => r.year == y)).length then _ else (0 : Rat)) = _
      rw [if_pos hpos']
      rfl
    · intro hz
      have hz' : (tbl.filter (fun r => r.year == y)).length = 0 := hz
      show (if 0 < (tbl.filter (fun r => r.year == y)).length then _ else (0 : Rat)) = 0
      rw [if_neg (by omega)]
  · intro y w yl
    refine ⟨?_, ?_, ?_⟩
    · show yl.length - (yl.filter (fun a => !(w.contains a.mal_id))).length +
          (yl.filter (fun a => !(w.contains a.mal_id))).length = yl.length
      have hle := List.length_filter_le (fun a => !(w.contains a.mal_id)) yl
      omega
    · intro hpos
      have hpos' : 0 < yl.length := hpos
      show (if 0 < yl.length then _ else (0 : Rat)) = _
      rw [if_pos hpos']
      rfl
    · intro hz
      have hz' : yl.length = 0 := hz
      show (if 0 < yl.length then _ else (0 : Rat)) = 0
      rw [if_neg (by omega)]

/-- Witness for C5 at a concrete catalog: year 2020 holds rows 1 and 2,
row 1 is watched, and the computed entry (1 watched of 2, 50%) satisfies
the identities. -/
theorem C5_witness :
    (ypOf tblC5 [1] 2020).watched + (ypOf tblC5 [1] 2020).remaining =
      (ypOf tblC5 [1] 2020).total ∧
    (0 < (ypOf tblC5 [1] 2020).total →
      (ypOf tblC5 [1] 2020).percent =
        ((ypOf tblC5 [1] 2020).watched : Rat) / ((ypOf tblC5 [1] 2020).total : Rat) * 100) ∧
    ((ypOf tblC5 [1] 2020).total = 0 → (ypOf tblC5 [1] 2020).percent = 0) :=
  C5_progress_invariants.1 tblC5 [1] (ypOf tblC5 [1] 2020)
    (List.mem_map_of_mem _ (by decide))

/-- The `wait_time` invariant carried by the fetch loop. -/
theorem waitAfter_invariant (resps : List ApiResp) :
    1 ≤ waitAfter resps ∧ waitAfter resps ≤ 20 := by
  suffices h : ∀ w, 1 ≤ w → w ≤ 20 →
      1 ≤ List.foldl stepWait w resps ∧ List.foldl stepWait w resps ≤ 20 by
    exact h 1 le_rfl (by omega)
  induction resps with
  | nil => intro w h1 h2; exact ⟨h1, h2⟩
  | cons r rs ih =>
    intro w h1 h2
    simp only [List.foldl_cons]
    refine ih (stepWait w r) ?_ ?_ <;> cases r <;> simp [stepWait] <;> omega

/-- C8: the backoff interval starts at the base value 1, every reachable
`wait_time` satisfies `1 ≤ wait_time ≤ 20`, the invariant is preserved
by every step of the loop, a rate-limit response at most doubles the
interval (and keeps it at or below the 20-second ceiling), and any
successful (non-error) response resets it to the base interval. -/
theorem C8_backoff_invariant :
    waitAfter [] = 1 ∧
    (∀ resps : List ApiResp, 1 ≤ waitAfter resps ∧ waitAfter resps ≤ 20) ∧
    (∀ (resps : List ApiResp) (r : ApiResp),
        1 ≤ stepWait (waitAfter resps) r ∧ stepWait (waitAfter resps) r ≤ 20) ∧
    (∀ resps : List ApiResp,
        stepWait (waitAfter resps) ApiResp.rateLimited ≤ 2 * waitAfter resps) ∧
    (∀ (w : Nat) (b : Bool), stepWait w (ApiResp.success b) = 1) := by
  refine ⟨rfl, waitAfter_invariant, ?_, ?_, fun w b => rfl⟩
  · intro resps r
    have h := waitAfter_invariant resps
    cases r <;> simp [stepWait] <;> omega
  · intro resps
    show min (waitAfter resps * 2) 20 ≤ 2 * waitAfter resps
    omega

/-- C9: a numeric threshold flag given the value 0 is falsy in the
`year` command's `if flag:` chain, so the corresponding entry never
reaches the filter dict and the query is the one built without the flag;
the builder's own `and value` guard likewise drops a zero threshold. -/
theorem C9_zero_threshold_filters (a : YearArgs) :
    mkFilters { a with min_rating := some 0 } =
      mkFilters { a with min_rating := none } ∧
    mkFilters { a with min_duration := some 0 } =
      mkFilters { a with min_duration := none } ∧
    mkFilters { a with max_duration := some 0 } =
      mkFilters { a with max_duration := none } ∧
    condPairs [("rating_min", FVal.q 0)] = [] ∧
    ∀ (tbl : List Row) (watched : List Int) (y : Int),
      searchRemaining tbl watched y
          (mkFilters { a with min_rating := some 0, min_duration := some 0, max_duration := some 0 }) =
        searchRemaining tbl watched y
          (mkFilters { a with min_rating := none, min_duration := none, max_duration := none }) :=
  ⟨rfl, rfl, rfl, rfl, fun _ _ _ => rfl⟩

end MalCompletionist
